import Mathlib

/-
Verification of the rolling multi-factor exposure estimator in
FamaFrench/batch_process.py (function process_stocks).

The per-instrument pipeline (return calculation, factor-aligned merge,
skip gates, scoring, basket labelling, row assembly) is embedded as
executable Lean definitions over a small model of IEEE floating values
(PyFloat), since the NaN / infinity behaviour of pandas and numpy is
load bearing for several properties.  The rolling OLS regression itself
is external numeric code (statsmodels RollingOLS); the pipeline is
parameterised over it as a function argument, so every theorem
quantifying over that argument covers the real regression as well.
-/

set_option maxRecDepth 20000

namespace FamaFrench

/-- Model of a numpy / Python float value: NaN, the two infinities, or a
finite value represented exactly as a rational. -/
inductive PyFloat where
  | nan
  | inf
  | ninf
  | fin (q : ℚ)
  deriving DecidableEq

namespace PyFloat

/-- pandas isna: flags NaN only, not infinities. -/
def isna : PyFloat → Bool
  | nan => true
  | _ => false

def neg : PyFloat → PyFloat
  | nan => nan
  | inf => ninf
  | ninf => inf
  | fin q => fin (-q)

/-- IEEE addition. -/
def add : PyFloat → PyFloat → PyFloat
  | nan, _ => nan
  | _, nan => nan
  | inf, ninf => nan
  | ninf, inf => nan
  | inf, _ => inf
  | _, inf => inf
  | ninf, _ => ninf
  | _, ninf => ninf
  | fin a, fin b => fin (a + b)

/-- IEEE subtraction. -/
def sub (a b : PyFloat) : PyFloat := add a (neg b)

/-- IEEE multiplication; infinity times zero is NaN. -/
def mul : PyFloat → PyFloat → PyFloat
  | nan, _ => nan
  | _, nan => nan
  | inf, inf => inf
  | inf, ninf => ninf
  | ninf, inf => ninf
  | ninf, ninf => inf
  | inf, fin q => if 0 < q then inf else if q < 0 then ninf else nan
  | fin q, inf => if 0 < q then inf else if q < 0 then ninf else nan
  | ninf, fin q => if 0 < q then ninf else if q < 0 then inf else nan
  | fin q, ninf => if 0 < q then ninf else if q < 0 then inf else nan
  | fin a, fin b => fin (a * b)

/-- numpy division: a finite value divided by zero gives a signed
infinity, zero divided by zero gives NaN (pandas emits these rather
than raising, unlike plain Python floats). -/
def div : PyFloat → PyFloat → PyFloat
  | nan, _ => nan
  | _, nan => nan
  | inf, inf => nan
  | inf, ninf => nan
  | ninf, inf => nan
  | ninf, ninf => nan
  | inf, fin q => if 0 ≤ q then inf else ninf
  | ninf, fin q => if 0 ≤ q then ninf else inf
  | fin _, inf => fin 0
  | fin _, ninf => fin 0
  | fin a, fin b =>
      if b = 0 then (if 0 < a then inf else if a < 0 then ninf else nan)
      else fin (a / b)

/-- IEEE strict less-than; any comparison with NaN is false. -/
def lt : PyFloat → PyFloat → Bool
  | nan, _ => false
  | _, nan => false
  | inf, _ => false
  | ninf, ninf => false
  | ninf, _ => true
  | fin _, inf => true
  | fin _, ninf => false
  | fin a, fin b => decide (a < b)

/-- IEEE less-or-equal; any comparison with NaN is false. -/
def le : PyFloat → PyFloat → Bool
  | nan, _ => false
  | _, nan => false
  | ninf, _ => true
  | _, ninf => false
  | inf, inf => true
  | inf, _ => false
  | fin _, inf => true
  | fin a, fin b => decide (a ≤ b)

/-- Python two-argument max: returns the second argument only when it is
strictly greater (comparisons with NaN being false). -/
def pymax (a b : PyFloat) : PyFloat := if lt a b then b else a

/-- Python two-argument min: returns the second argument only when it is
strictly smaller (comparisons with NaN being false). -/
def pymin (a b : PyFloat) : PyFloat := if lt b a then b else a

end PyFloat

/-- Round a rational to the nearest integer, ties to even (the rounding
used by Python round on floats). -/
def halfEven (x : ℚ) : ℤ :=
  if x - ⌊x⌋ < 1/2 then ⌊x⌋
  else if 1/2 < x - ⌊x⌋ then ⌊x⌋ + 1
  else if ⌊x⌋ % 2 = 0 then ⌊x⌋ else ⌊x⌋ + 1

/-- Python round(x, d) where p = 10 ^ d: scale, round half to even,
unscale.  NaN and the infinities round to themselves. -/
def roundTo (p : ℚ) : PyFloat → PyFloat
  | .fin q => .fin ((halfEven (q * p) : ℚ) / p)
  | x => x

/-- Two-digit zero padding for the fractional part of a formatted value. -/
def pad2 (n : ℕ) : String := if n < 10 then "0" ++ toString n else toString n

/-- Format a rational as Python does a float with format spec .2f. -/
def fmtQ2 (q : ℚ) : String :=
  let n := halfEven (q * 100)
  let sgn := if n < 0 then "-" else ""
  sgn ++ toString (n.natAbs / 100) ++ "." ++ pad2 (n.natAbs % 100)

/-- Format a PyFloat with two decimal places, as the f-string in the
trend assembly does. -/
def fmt2 : PyFloat → String
  | .nan => "nan"
  | .inf => "inf"
  | .ninf => "-inf"
  | .fin q => fmtQ2 q

/-- One row of the Fama-French factor table ff_data, after its own
dropna and division by 100: the five factor returns and the risk-free
rate, all finite. -/
structure FFRow where
  mktRF : ℚ
  smb : ℚ
  hml : ℚ
  rmw : ℚ
  cma : ℚ
  rf : ℚ
  deriving DecidableEq

/-- One row of df_merged: a date present in both the return series and
the factor table, carrying the (already non-NaN) stock return and the
factor row. -/
structure MergedRow where
  date : ℕ
  stockRet : PyFloat
  f : FFRow
  deriving DecidableEq

/-- The final rolling-regression estimate rolling_res.params.iloc[-1]:
the intercept plus the five factor loadings, each a float. -/
structure Betas where
  const : PyFloat
  mktRF : PyFloat
  smb : PyFloat
  hml : PyFloat
  rmw : PyFloat
  cma : PyFloat
  deriving DecidableEq

/-- betas.isna().any(): true when any of the six coefficients is NaN
(an infinity is not flagged by pandas isna). -/
def anyNaN (b : Betas) : Bool :=
  b.const.isna || b.mktRF.isna || b.smb.isna || b.hml.isna || b.rmw.isna || b.cma.isna

/-- All-NaN coefficient set, the shape RollingOLS reports before the
window is populated. -/
def nanBetas : Betas := ⟨.nan, .nan, .nan, .nan, .nan, .nan⟩

/-- Tail of pct_change: each price divided by its predecessor, minus
one, with numpy division semantics. -/
def pctChangeAux (prev : ℚ) : List (ℕ × ℚ) → List (ℕ × PyFloat)
  | [] => []
  | (d, p) :: rest =>
      (d, PyFloat.sub (PyFloat.div (.fin p) (.fin prev)) (.fin 1)) :: pctChangeAux p rest

/-- df Close pct_change(): the first entry has no predecessor and is
NaN; each later entry is price over previous price minus one. -/
def pctChange : List (ℕ × ℚ) → List (ℕ × PyFloat)
  | [] => []
  | (d, p) :: rest => (d, PyFloat.nan) :: pctChangeAux p rest

/-- Series dropna: remove the rows whose value is NaN. -/
def dropna (l : List (ℕ × PyFloat)) : List (ℕ × PyFloat) :=
  l.filter (fun r => !r.2.isna)

/-- daily_returns = df Close pct_change() dropna(): the Return
Calculator of the spec. -/
def dailyRet (prices : List (ℕ × ℚ)) : List (ℕ × PyFloat) :=
  dropna (pctChange prices)

/-- Series tail(n): the last n entries. -/
def takeLast (n : ℕ) (l : List α) : List α := l.drop (l.length - n)

/-- df_merged: inner join of the return series with the factor table on
the date index, incomplete rows dropped (the return side is already
NaN-free and the factor table was dropna-ed on load, so the join
intersection is exactly the surviving set). -/
def mergedOf (prices : List (ℕ × ℚ)) (ff : List (ℕ × FFRow)) : List MergedRow :=
  (dailyRet prices).filterMap (fun r =>
    match ff.lookup r.1 with
    | some fr => some ⟨r.1, r.2, fr⟩
    | none => none)

/-- Ex_Ret column: stock return minus the risk-free rate, row by row. -/
def exRetCol (rows : List MergedRow) : List PyFloat :=
  rows.map (fun r => PyFloat.sub r.stockRet (.fin r.f.rf))

/-- The exogenous columns handed to the regression: the factor rows. -/
def exogOf (rows : List MergedRow) : List FFRow := rows.map (·.f)

/-- rolling_res.params.iloc[-1] for an abstract regression backend:
the last entry of the rolling coefficient list, all NaN when the list
is empty. -/
def finalBetas (regress : List PyFloat → List FFRow → List Betas)
    (prices : List (ℕ × ℚ)) (ff : List (ℕ × FFRow)) : Betas :=
  (regress (exRetCol (mergedOf prices ff)) (exogOf (mergedOf prices ff))).getLastD nanBetas

/-- Market-beta score: min(max(beta_mkt * 50, 0), 100). -/
def scoreBeta (b : PyFloat) : PyFloat :=
  PyFloat.pymin (PyFloat.pymax (PyFloat.mul b (.fin 50)) (.fin 0)) (.fin 100)

/-- Size score: min(max(50 + beta_smb * 50, 0), 100). -/
def scoreSize (b : PyFloat) : PyFloat :=
  PyFloat.pymin (PyFloat.pymax (PyFloat.add (.fin 50) (PyFloat.mul b (.fin 50))) (.fin 0)) (.fin 100)

/-- Value score: min(max(50 + beta_hml * 50, 0), 100). -/
def scoreValue (b : PyFloat) : PyFloat :=
  PyFloat.pymin (PyFloat.pymax (PyFloat.add (.fin 50) (PyFloat.mul b (.fin 50))) (.fin 0)) (.fin 100)

/-- Quality score: min(max(50 + beta_rmw * 100, 0), 100). -/
def scoreQuality (b : PyFloat) : PyFloat :=
  PyFloat.pymin (PyFloat.pymax (PyFloat.add (.fin 50) (PyFloat.mul b (.fin 100))) (.fin 0)) (.fin 100)

/-- Momentum score: min(max(50 + mom_raw * 100, 0), 100). -/
def scoreMom (m : PyFloat) : PyFloat :=
  PyFloat.pymin (PyFloat.pymax (PyFloat.add (.fin 50) (PyFloat.mul m (.fin 100))) (.fin 0)) (.fin 100)

/-- The value px.iloc[-1] / px.iloc[-126] - 1 taken by the long branch
of the momentum computation. -/
def momCompute (px : List ℚ) : PyFloat :=
  PyFloat.sub (PyFloat.div (.fin (px.getLastD 0)) (.fin (px.getD (px.length - 126) 0))) (.fin 1)

/-- mom_raw = px.iloc[-1] / px.iloc[-126] - 1 if len(px) > 126 else 0. -/
def momRaw (px : List ℚ) : PyFloat :=
  if 126 < px.length then momCompute px else .fin 0

/-- Basket labels, collected in source order: one if/elif pair per
factor group plus the single quality test. -/
def baskets (bMkt bSmb bHml bRmw mom : PyFloat) : List String :=
  (if PyFloat.lt (.fin (13/10)) bMkt then ["Aggressive High Beta"]
   else if PyFloat.lt bMkt (.fin (7/10)) then ["Defensive Low Vol"] else [])
  ++ (if PyFloat.lt (.fin (1/2)) bSmb then ["Small Cap Tilt"]
      else if PyFloat.lt bSmb (.fin (-(1/2))) then ["Large Cap Tilt"] else [])
  ++ (if PyFloat.lt (.fin (3/10)) bHml then ["Deep Value"]
      else if PyFloat.lt bHml (.fin (-(3/10))) then ["High Growth"] else [])
  ++ (if PyFloat.lt (.fin (3/10)) bRmw then ["High Quality MOAT"] else [])
  ++ (if PyFloat.lt (.fin (1/5)) mom then ["Momentum Leader"]
      else if PyFloat.lt mom (.fin (-(1/10))) then ["Falling Knife"] else [])

/-- baskets_str: semicolon-joined labels, or Neutral when none apply. -/
def basketsStr (l : List String) : String :=
  if l.isEmpty then "Neutral" else String.intercalate "; " l

/-- A value stored in a result row: a string or a float. -/
inductive RowVal where
  | s (v : String)
  | f (v : PyFloat)
  deriving DecidableEq

/-- Every 20th element, starting from the first (iloc with step 20). -/
def strideBy20 (l : List PyFloat) : List PyFloat :=
  (l.enum.filter (fun p => p.1 % 20 = 0)).map (·.2)

/-- beta_trend_str: market loading column, dropna, every 20th entry,
last ten, each formatted to two decimals, comma-joined. -/
def betaTrendStr (col : List PyFloat) : String :=
  String.intercalate ","
    ((takeLast 10 (strideBy20 (col.filter (fun x => !x.isna)))).map fmt2)

/-- The result row dict assembled for one instrument, in source key
order, with the scoring applied to the final coefficients and the
momentum applied to the close column. -/
def assembleRow (tk : String) (lastDate : ℕ) (betas : Betas) (px : List ℚ)
    (trendCol : List PyFloat) : List (String × RowVal) :=
  let bMkt := betas.mktRF
  let bSmb := betas.smb
  let bHml := betas.hml
  let bRmw := betas.rmw
  let mom := momRaw px
  [("Ticker", .s tk),
   ("Last_Date", .s (toString lastDate)),
   ("Score_Beta", .f (roundTo 100 (scoreBeta bMkt))),
   ("Score_Size", .f (roundTo 100 (scoreSize bSmb))),
   ("Score_Value", .f (roundTo 100 (scoreValue bHml))),
   ("Score_Mom", .f (roundTo 100 (scoreMom mom))),
   ("Score_Quality", .f (roundTo 100 (scoreQuality bRmw))),
   ("Beta_Raw", .f (roundTo 1000 bMkt)),
   ("SMB_Raw", .f (roundTo 1000 bSmb)),
   ("HML_Raw", .f (roundTo 1000 bHml)),
   ("RMW_Raw", .f (roundTo 1000 bRmw)),
   ("Baskets", .s (basketsStr (baskets bMkt bSmb bHml bRmw mom))),
   ("Beta_Trend", .s (betaTrendStr trendCol))]

/-- Shared mutable loop state: the returns collection written to the
returns CSV and the results list written to the factor CSV. -/
structure BatchState where
  returnsData : List (String × List (ℕ × PyFloat))
  results : List (List (String × RowVal))
  deriving DecidableEq

/-- Body of the per-instrument loop in process_stocks, after the price
download: the insufficient-data gate, the return calculation, the
returns-collection update, the overlap gate, the regression, the NaN
gate, and the scoring plus row assembly.  The rolling regression is the
abstract argument regress, taking the endogenous column and the
exogenous rows and returning the rolling coefficient list. -/
def processInstrument (regress : List PyFloat → List FFRow → List Betas)
    (tk : String) (prices : List (ℕ × ℚ)) (ff : List (ℕ × FFRow))
    (st : BatchState) : BatchState :=
  if prices.length < 252 then st
  else
    let dr := dailyRet prices
    if dr.length = 0 then st
    else
      let st1 : BatchState := ⟨st.returnsData ++ [(tk, takeLast 252 dr)], st.results⟩
      let merged := mergedOf prices ff
      if merged.length < 126 then st1
      else
        let params := regress (exRetCol merged) (exogOf merged)
        let betas := params.getLastD nanBetas
        if anyNaN betas then st1
        else
          let lastDate := (merged.map (·.date)).getLastD 0
          let row := assembleRow tk lastDate betas (prices.map (·.2)) (params.map (·.mktRF))
          ⟨st1.returnsData, st1.results ++ [row]⟩

/-- The batch loop: fold the per-instrument body over the ticker list,
continuing unconditionally after every instrument. -/
def processBatch (regress : List PyFloat → List FFRow → List Betas)
    (insts : List (String × List (ℕ × ℚ))) (ff : List (ℕ × FFRow))
    (st : BatchState) : BatchState :=
  insts.foldl (fun s i => processInstrument regress i.1 i.2 ff s) st

/-- A row value that is a finite score inside the closed interval
from 0 to 100 (used to state boundedness of stored scores). -/
def boundedVal : Option RowVal → Bool
  | some (.f x) => PyFloat.le (.fin 0) x && PyFloat.le x (.fin 100)
  | _ => false

/-- Condition on a price tail: no step whose previous and current
prices are both zero (the only way pct_change produces a NaN after the
first row, since zero over nonzero is a finite value and nonzero over
zero is a signed infinity). -/
def noZeroStep (prev : ℚ) : List (ℕ × ℚ) → Bool
  | [] => true
  | (_, p) :: rest => !(decide (prev = 0) && decide (p = 0)) && noZeroStep p rest

/-- Condition on a full price series: no two consecutive zero prices. -/
def noConsecutiveZeros : List (ℕ × ℚ) → Bool
  | [] => true
  | (_, p) :: rest => noZeroStep p rest

/-- Factor row with all factor returns and the risk-free rate zero. -/
def ffZero : FFRow := ⟨0, 0, 0, 0, 0, 0⟩

/-- Coefficient set with intercept and all loadings exactly zero. -/
def zeroBetas : Betas := ⟨.fin 0, .fin 0, .fin 0, .fin 0, .fin 0, .fin 0⟩

/-- Coefficient set with an infinite market loading and no NaN. -/
def infBetas : Betas := ⟨.fin 0, .inf, .fin 0, .fin 0, .fin 0, .fin 0⟩

/-- Regression backend returning the all-zero coefficient set. -/
def cRegZero : List PyFloat → List FFRow → List Betas := fun _ _ => [zeroBetas]

/-- Regression backend returning the infinite-market-loading set. -/
def cRegInf : List PyFloat → List FFRow → List Betas := fun _ _ => [infBetas]

/-- Regression backend returning an all-NaN final estimate. -/
def cRegNaN : List PyFloat → List FFRow → List Betas := fun _ _ => [nanBetas]

/-- Scenario A price series: 400 trading days at the constant close
price 100, dated 0 to 399. -/
def cPricesA : List (ℕ × ℚ) := (List.range 400).map (fun i => (i, 100))

/-- A factor series overlapping scenario A on its last 126 return
dates (274 to 399), all entries zero. -/
def cFFA : List (ℕ × FFRow) := (List.range 126).map (fun i => (i + 274, ffZero))

/-- A 252-day constant price series, dated 0 to 251. -/
def cPricesB : List (ℕ × ℚ) := (List.range 252).map (fun i => (i, 100))

/-- A factor series overlapping the 252-day series on 126 return
dates (126 to 251). -/
def cFFB : List (ℕ × FFRow) := (List.range 126).map (fun i => (i + 126, ffZero))

/-- A factor series overlapping the 252-day series on exactly 100
return dates (1 to 100), below the 126-row minimum. -/
def cFFC : List (ℕ × FFRow) := (List.range 100).map (fun i => (i + 1, ffZero))

/-- A 126-session price series: 125 sessions at price 1 followed by a
final session at price 2. -/
def cPx126 : List ℚ := List.replicate 125 (1 : ℚ) ++ [2]

/-- A 127-session price series of all zero closes, whose momentum
ratio is zero divided by zero. -/
def cPxZeros : List ℚ := List.replicate 127 (0 : ℚ)

lemma pymax_fin (x y : ℚ) : PyFloat.pymax (.fin x) (.fin y) = .fin (max x y) := by
  by_cases h : x < y
  · simp [PyFloat.pymax, PyFloat.lt, h, max_eq_right h.le]
  · simp [PyFloat.pymax, PyFloat.lt, h, max_eq_left (not_lt.1 h)]

lemma pymin_fin (x y : ℚ) : PyFloat.pymin (.fin x) (.fin y) = .fin (min x y) := by
  by_cases h : y < x
  · simp [PyFloat.pymin, PyFloat.lt, h, min_eq_right h.le]
  · simp [PyFloat.pymin, PyFloat.lt, h, min_eq_left (not_lt.1 h)]

lemma fin_le_fin (a b : ℚ) : PyFloat.le (.fin a) (.fin b) = decide (a ≤ b) := rfl

lemma clamp_nonneg (u : ℚ) : 0 ≤ min (max u 0) 100 :=
  le_min (le_max_right u 0) (by norm_num)

lemma clamp_le_hundred (u : ℚ) : min (max u 0) 100 ≤ 100 := min_le_right _ _

lemma clamp_eq_zero {u : ℚ} (h : u ≤ 0) : min (max u 0) 100 = 0 := by
  rw [max_eq_right h]
  exact min_eq_left (by norm_num)

lemma clamp_eq_hundred {u : ℚ} (h : 100 ≤ u) : min (max u 0) 100 = 100 := by
  rw [max_eq_left (le_trans (by norm_num) h)]
  exact min_eq_right h

lemma scoreBeta_fin (b : ℚ) : scoreBeta (.fin b) = .fin (min (max (b * 50) 0) 100) := by
  unfold scoreBeta
  rw [show PyFloat.mul (.fin b) (.fin 50) = .fin (b * 50) from rfl, pymax_fin, pymin_fin]

lemma scoreSize_fin (s : ℚ) : scoreSize (.fin s) = .fin (min (max (50 + s * 50) 0) 100) := by
  unfold scoreSize
  rw [show PyFloat.add (.fin 50) (PyFloat.mul (.fin s) (.fin 50)) = .fin (50 + s * 50) from rfl,
    pymax_fin, pymin_fin]

lemma scoreValue_fin (v : ℚ) : scoreValue (.fin v) = .fin (min (max (50 + v * 50) 0) 100) := by
  unfold scoreValue
  rw [show PyFloat.add (.fin 50) (PyFloat.mul (.fin v) (.fin 50)) = .fin (50 + v * 50) from rfl,
    pymax_fin, pymin_fin]

lemma scoreQuality_fin (q : ℚ) : scoreQuality (.fin q) = .fin (min (max (50 + q * 100) 0) 100) := by
  unfold scoreQuality
  rw [show PyFloat.add (.fin 50) (PyFloat.mul (.fin q) (.fin 100)) = .fin (50 + q * 100) from rfl,
    pymax_fin, pymin_fin]

lemma scoreMom_fin (m : ℚ) : scoreMom (.fin m) = .fin (min (max (50 + m * 100) 0) 100) := by
  unfold scoreMom
  rw [show PyFloat.add (.fin 50) (PyFloat.mul (.fin m) (.fin 100)) = .fin (50 + m * 100) from rfl,
    pymax_fin, pymin_fin]

lemma clamp_le_pair (u : ℚ) :
    decide ((0 : ℚ) ≤ min (max u 0) 100) = true ∧ decide (min (max u 0) 100 ≤ (100 : ℚ)) = true :=
  ⟨decide_eq_true (clamp_nonneg u), decide_eq_true (clamp_le_hundred u)⟩

/-- Claim C1: every score the Score Mapper produces from real-valued
loadings and momentum lies in the closed interval from 0 to 100, and
an input far outside range is clamped to exactly 0 or exactly 100. -/
theorem score_mapper_bounded_and_clamped (b s v q m : ℚ) :
    (PyFloat.le (.fin 0) (scoreBeta (.fin b)) = true
      ∧ PyFloat.le (scoreBeta (.fin b)) (.fin 100) = true
      ∧ (b ≤ 0 → scoreBeta (.fin b) = .fin 0)
      ∧ (2 ≤ b → scoreBeta (.fin b) = .fin 100))
    ∧ (PyFloat.le (.fin 0) (scoreSize (.fin s)) = true
      ∧ PyFloat.le (scoreSize (.fin s)) (.fin 100) = true
      ∧ (s ≤ -1 → scoreSize (.fin s) = .fin 0)
      ∧ (1 ≤ s → scoreSize (.fin s) = .fin 100))
    ∧ (PyFloat.le (.fin 0) (scoreValue (.fin v)) = true
      ∧ PyFloat.le (scoreValue (.fin v)) (.fin 100) = true
      ∧ (v ≤ -1 → scoreValue (.fin v) = .fin 0)
      ∧ (1 ≤ v → scoreValue (.fin v) = .fin 100))
    ∧ (PyFloat.le (.fin 0) (scoreQuality (.fin q)) = true
      ∧ PyFloat.le (scoreQuality (.fin q)) (.fin 100) = true
      ∧ (q ≤ -(1/2) → scoreQuality (.fin q) = .fin 0)
      ∧ (1/2 ≤ q → scoreQuality (.fin q) = .fin 100))
    ∧ (PyFloat.le (.fin 0) (scoreMom (.fin m)) = true
      ∧ PyFloat.le (scoreMom (.fin m)) (.fin 100) = true
      ∧ (m ≤ -(1/2) → scoreMom (.fin m) = .fin 0)
      ∧ (1/2 ≤ m → scoreMom (.fin m) = .fin 100)) := by
  refine ⟨⟨?_, ?_, ?_, ?_⟩, ⟨?_, ?_, ?_, ?_⟩, ⟨?_, ?_, ?_, ?_⟩, ⟨?_, ?_, ?_, ?_⟩,
    ⟨?_, ?_, ?_, ?_⟩⟩
  · rw [scoreBeta_fin, fin_le_fin]; exact (clamp_le_pair _).1
  · rw [scoreBeta_fin, fin_le_fin]; exact (clamp_le_pair _).2
  · intro h; rw [scoreBeta_fin, clamp_eq_zero (show b * 50 ≤ 0 by linarith)]
  · intro h; rw [scoreBeta_fin, clamp_eq_hundred (show (100 : ℚ) ≤ b * 50 by linarith)]
  · rw [scoreSize_fin, fin_le_fin]; exact (clamp_le_pair _).1
  · rw [scoreSize_fin, fin_le_fin]; exact (clamp_le_pair _).2
  · intro h; rw [scoreSize_fin, clamp_eq_zero (show 50 + s * 50 ≤ 0 by linarith)]
  · intro h; rw [scoreSize_fin, clamp_eq_hundred (show (100 : ℚ) ≤ 50 + s * 50 by linarith)]
  · rw [scoreValue_fin, fin_le_fin]; exact (clamp_le_pair _).1
  · rw [scoreValue_fin, fin_le_fin]; exact (clamp_le_pair _).2
  · intro h; rw [scoreValue_fin, clamp_eq_zero (show 50 + v * 50 ≤ 0 by linarith)]
  · intro h; rw [scoreValue_fin, clamp_eq_hundred (show (100 : ℚ) ≤ 50 + v * 50 by linarith)]
  · rw [scoreQuality_fin, fin_le_fin]; exact (clamp_le_pair _).1
  · rw [scoreQuality_fin, fin_le_fin]; exact (clamp_le_pair _).2
  · intro h; rw [scoreQuality_fin, clamp_eq_zero (show 50 + q * 100 ≤ 0 by linarith)]
  · intro h; rw [scoreQuality_fin, clamp_eq_hundred (show (100 : ℚ) ≤ 50 + q * 100 by linarith)]
  · rw [scoreMom_fin, fin_le_fin]; exact (clamp_le_pair _).1
  · rw [scoreMom_fin, fin_le_fin]; exact (clamp_le_pair _).2
  · intro h; rw [scoreMom_fin, clamp_eq_zero (show 50 + m * 100 ≤ 0 by linarith)]
  · intro h; rw [scoreMom_fin, clamp_eq_hundred (show (100 : ℚ) ≤ 50 + m * 100 by linarith)]

/-- Claim C1 witness: the bounds and exact clamping evaluated at
concrete far-out inputs. -/
theorem score_mapper_bounded_and_clamped_inst :
    scoreBeta (.fin (-3)) = .fin 0 ∧ scoreBeta (.fin 7) = .fin 100
      ∧ PyFloat.le (.fin 0) (scoreSize (.fin (-1000))) = true
      ∧ scoreMom (.fin 1000) = .fin 100 := by
  have h1 := score_mapper_bounded_and_clamped (-3) (-1000) 0 0 1000
  have h2 := score_mapper_bounded_and_clamped 7 0 0 0 0
  exact ⟨h1.1.2.2.1 (by norm_num), h2.1.2.2.2 (by norm_num), h1.2.1.1,
    h1.2.2.2.2.2.2.2 (by norm_num)⟩

/-- Claim C8: the basket label list never holds two labels of the same
factor group, because each group is an if/elif pair, and therefore
holds at most five labels (one per group) before the Neutral fallback
is considered. -/
theorem baskets_groups_exclusive (bMkt bSmb bHml bRmw mom : PyFloat) :
    ((baskets bMkt bSmb bHml bRmw mom).contains "Aggressive High Beta"
        && (baskets bMkt bSmb bHml bRmw mom).contains "Defensive Low Vol") = false
      ∧ ((baskets bMkt bSmb bHml bRmw mom).contains "Small Cap Tilt"
        && (baskets bMkt bSmb bHml bRmw mom).contains "Large Cap Tilt") = false
      ∧ ((baskets bMkt bSmb bHml bRmw mom).contains "Deep Value"
        && (baskets bMkt bSmb bHml bRmw mom).contains "High Growth") = false
      ∧ ((baskets bMkt bSmb bHml bRmw mom).contains "Momentum Leader"
        && (baskets bMkt bSmb bHml bRmw mom).contains "Falling Knife") = false
      ∧ (baskets bMkt bSmb bHml bRmw mom).length ≤ 5 := by
  unfold baskets
  split_ifs <;> refine ⟨?_, ?_, ?_, ?_, ?_⟩ <;> decide

/-- Claim C3 counterexample: a price series of exactly 126 sessions,
rising from 1 to 2.  The claim calls for the raw change (the value of
the computing branch, here 1), but the code takes the long branch only
for strictly more than 126 sessions and returns 0. -/
theorem momentum_boundary_refuted :
    cPx126.length = 126 ∧ momRaw cPx126 = .fin 0 ∧ momCompute cPx126 = .fin 1
      ∧ decide (momRaw cPx126 = momCompute cPx126) = false := by
  refine ⟨by decide, rfl, by with_unfolding_all rfl, by with_unfolding_all rfl⟩

/-- Claim C3 as amended: the Momentum Module returns the ratio of the
last price to the 126th-from-last price minus one whenever strictly
more than 126 sessions exist, and returns 0 (flat momentum, no error)
whenever at most 126 sessions exist, including exactly 126. -/
theorem momentum_lookback_cases (px : List ℚ) :
    (126 < px.length → momRaw px = momCompute px)
      ∧ (px.length ≤ 126 → momRaw px = .fin 0) := by
  constructor
  · intro h; unfold momRaw; rw [if_pos h]
  · intro h; unfold momRaw; rw [if_neg (by omega)]

/-- Claim C3 witness: both branches evaluated at concrete series of
127 and 50 sessions. -/
theorem momentum_lookback_cases_inst :
    momRaw (List.replicate 127 (2 : ℚ)) = momCompute (List.replicate 127 (2 : ℚ))
      ∧ momRaw (List.replicate 50 (2 : ℚ)) = .fin 0 :=
  ⟨(momentum_lookback_cases (List.replicate 127 (2 : ℚ))).1 (by decide),
   (momentum_lookback_cases (List.replicate 50 (2 : ℚ))).2 (by decide)⟩

/-- Claim C9: an instrument reaching the momentum computation has at
least 252 price rows (shorter ones are returned unchanged by the
insufficient-data gate before anything else happens), and for any
close column of at least 252 entries the momentum takes the computing
branch, never the fewer-than-126-sessions fallback. -/
theorem momentum_fallback_unreachable
    (regress : List PyFloat → List FFRow → List Betas) (tk : String)
    (prices : List (ℕ × ℚ)) (ff : List (ℕ × FFRow)) (st : BatchState) :
    (prices.length < 252 → processInstrument regress tk prices ff st = st)
      ∧ (252 ≤ prices.length → momRaw (prices.map (·.2)) = momCompute (prices.map (·.2))) := by
  constructor
  · intro h; unfold processInstrument; rw [if_pos h]
  · intro h
    have hl : 126 < (prices.map (·.2)).length := by rw [List.length_map]; omega
    unfold momRaw; rw [if_pos hl]

/-- Claim C9 witness: the short-series gate at an empty series and the
momentum branch at a concrete 252-day series. -/
theorem momentum_fallback_unreachable_inst :
    processInstrument cRegZero "T" [] [] ⟨[], []⟩ = ⟨[], []⟩
      ∧ momRaw (cPricesB.map (·.2)) = momCompute (cPricesB.map (·.2)) :=
  ⟨(momentum_fallback_unreachable cRegZero "T" [] [] ⟨[], []⟩).1 (by decide),
   (momentum_fallback_unreachable cRegZero "T" cPricesB [] ⟨[], []⟩).2 (by decide)⟩

lemma step_not_nan {prev p : ℚ} (h : ¬(prev = 0 ∧ p = 0)) :
    (PyFloat.sub (PyFloat.div (.fin p) (.fin prev)) (.fin 1)).isna = false := by
  by_cases hp : prev = 0
  · have hq : p ≠ 0 := fun hq => h ⟨hp, hq⟩
    rcases lt_trichotomy p 0 with h1 | h1 | h1
    · simp [PyFloat.div, hp, h1, h1.not_lt, PyFloat.sub, PyFloat.add, PyFloat.neg, PyFloat.isna]
    · exact absurd h1 hq
    · simp [PyFloat.div, hp, h1, PyFloat.sub, PyFloat.add, PyFloat.neg, PyFloat.isna]
  · simp [PyFloat.div, hp, PyFloat.sub, PyFloat.add, PyFloat.neg, PyFloat.isna]

lemma pctChangeAux_noZero_len (rest : List (ℕ × ℚ)) : ∀ prev : ℚ,
    noZeroStep prev rest = true → (dropna (pctChangeAux prev rest)).length = rest.length := by
  induction rest with
  | nil => intro prev _; rfl
  | cons hd tl ih =>
    intro prev h
    obtain ⟨d, p⟩ := hd
    rw [noZeroStep, Bool.and_eq_true, Bool.not_eq_true', Bool.and_eq_false_iff] at h
    have hstep : ¬(prev = 0 ∧ p = 0) := by
      rcases h.1 with h0 | h0 <;> rw [decide_eq_false_iff_not] at h0
      · exact fun hc => h0 hc.1
      · exact fun hc => h0 hc.2
    rw [pctChangeAux, dropna, List.filter_cons, if_pos (by simp [step_not_nan hstep])]
    rw [List.length_cons]
    have := ih p h.2
    rw [dropna] at this
    rw [this, List.length_cons]

/-- Claim C7 counterexample: a two-element price series of zero
prices.  The single step divides zero by zero, pandas produces NaN and
dropna removes it, so the output is empty rather than of length one. -/
theorem return_calc_zero_prices_refuted :
    [(0, (0:ℚ)), (1, 0)].length = 2 ∧ dailyRet [(0, (0:ℚ)), (1, 0)] = []
      ∧ decide ((dailyRet [(0, (0:ℚ)), (1, 0)]).length
          = [(0, (0:ℚ)), (1, 0)].length - 1) = false := by
  exact ⟨rfl, by with_unfolding_all rfl, by with_unfolding_all rfl⟩

/-- Claim C7 as amended: for every price series of length under 2 the
Return Calculator yields an empty series with no exception, and for a
longer series the first price is dropped so the output length is the
input length minus one, provided no zero price is immediately followed
by another zero price (that one step is NaN and is dropped too; a
nonzero price after a zero one yields an infinite entry but keeps the
length). -/
theorem return_calc_length (prices : List (ℕ × ℚ)) :
    (prices.length < 2 → dailyRet prices = [])
      ∧ (noConsecutiveZeros prices = true → (dailyRet prices).length = prices.length - 1) := by
  constructor
  · intro h
    cases prices with
    | nil => rfl
    | cons hd tl =>
      obtain ⟨d, p⟩ := hd
      cases tl with
      | nil => rfl
      | cons b tl2 => simp [List.length_cons] at h; omega
  · intro h
    cases prices with
    | nil => rfl
    | cons hd tl =>
      obtain ⟨d, p⟩ := hd
      have hh : dailyRet ((d, p) :: tl) = dropna (pctChangeAux p tl) := by
        rw [dailyRet, pctChange, dropna, List.filter_cons,
          if_neg (by simp [PyFloat.isna]), dropna]
      rw [hh, pctChangeAux_noZero_len tl p (by rw [noConsecutiveZeros] at h; exact h)]
      simp

/-- Claim C7 witness: a one-point series yields the empty return
series, and a two-point nonzero series yields one return. -/
theorem return_calc_length_inst :
    dailyRet [(0, (5:ℚ))] = [] ∧ (dailyRet [(0, (1:ℚ)), (1, 2)]).length = 1 :=
  ⟨(return_calc_length [(0, (5:ℚ))]).1 (by decide),
   (return_calc_length [(0, (1:ℚ)), (1, 2)]).2 (by with_unfolding_all rfl)⟩

lemma halfEven_nonneg {x : ℚ} (h : 0 ≤ x) : 0 ≤ halfEven x := by
  have hf : 0 ≤ ⌊x⌋ := Int.floor_nonneg.2 h
  unfold halfEven
  split_ifs <;> omega

lemma halfEven_le {x : ℚ} {B : ℤ} (h : x ≤ B) : halfEven x ≤ B := by
  have hfB : ⌊x⌋ ≤ B := by
    have h2 := Int.floor_le_floor h
    rwa [Int.floor_intCast] at h2
  have hfx : (⌊x⌋ : ℚ) ≤ x := Int.floor_le x
  unfold halfEven
  split_ifs with h1 h2 h3
  · exact hfB
  · have hlt : (⌊x⌋ : ℚ) < B := by linarith
    have : ⌊x⌋ < B := by exact_mod_cast hlt
    omega
  · exact hfB
  · have hx : x - ⌊x⌋ = 1/2 := le_antisymm (not_lt.1 h2) (not_lt.1 h1)
    have hlt : (⌊x⌋ : ℚ) < B := by linarith
    have : ⌊x⌋ < B := by exact_mod_cast hlt
    omega

lemma roundTo100_fin_bounds {q : ℚ} (h0 : 0 ≤ q) (h1 : q ≤ 100) :
    0 ≤ (halfEven (q * 100) : ℚ) / 100 ∧ (halfEven (q * 100) : ℚ) / 100 ≤ 100 := by
  have hnn : (0 : ℤ) ≤ halfEven (q * 100) := halfEven_nonneg (by positivity)
  have hle : halfEven (q * 100) ≤ (10000 : ℤ) := halfEven_le (by push_cast; linarith)
  constructor
  · exact div_nonneg (by exact_mod_cast hnn) (by norm_num)
  · rw [div_le_iff₀ (by norm_num : (0:ℚ) < 100)]
    calc (halfEven (q * 100) : ℚ) ≤ 10000 := by exact_mod_cast hle
      _ = 100 * 100 := by norm_num

lemma ne_nan_isna (x : PyFloat) (h : x ≠ .nan) : x.isna = false := by
  cases x with
  | nan => exact absurd rfl h
  | inf => rfl
  | ninf => rfl
  | fin q => rfl

lemma scoreBeta_bounds (x : PyFloat) (h : x.isna = false) :
    PyFloat.le (.fin 0) (scoreBeta x) = true ∧ PyFloat.le (scoreBeta x) (.fin 100) = true := by
  cases x with
  | nan => simp [PyFloat.isna] at h
  | inf => exact ⟨by with_unfolding_all rfl, by with_unfolding_all rfl⟩
  | ninf => exact ⟨by with_unfolding_all rfl, by with_unfolding_all rfl⟩
  | fin q =>
      rw [scoreBeta_fin, fin_le_fin, fin_le_fin]
      exact clamp_le_pair _

lemma scoreSize_bounds (x : PyFloat) (h : x.isna = false) :
    PyFloat.le (.fin 0) (scoreSize x) = true ∧ PyFloat.le (scoreSize x) (.fin 100) = true := by
  cases x with
  | nan => simp [PyFloat.isna] at h
  | inf => exact ⟨by with_unfolding_all rfl, by with_unfolding_all rfl⟩
  | ninf => exact ⟨by with_unfolding_all rfl, by with_unfolding_all rfl⟩
  | fin q =>
      rw [scoreSize_fin, fin_le_fin, fin_le_fin]
      exact clamp_le_pair _

lemma scoreValue_bounds (x : PyFloat) (h : x.isna = false) :
    PyFloat.le (.fin 0) (scoreValue x) = true ∧ PyFloat.le (scoreValue x) (.fin 100) = true := by
  cases x with
  | nan => simp [PyFloat.isna] at h
  | inf => exact ⟨by with_unfolding_all rfl, by with_unfolding_all rfl⟩
  | ninf => exact ⟨by with_unfolding_all rfl, by with_unfolding_all rfl⟩
  | fin q =>
      rw [scoreValue_fin, fin_le_fin, fin_le_fin]
      exact clamp_le_pair _

lemma scoreQuality_bounds (x : PyFloat) (h : x.isna = false) :
    PyFloat.le (.fin 0) (scoreQuality x) = true ∧ PyFloat.le (scoreQuality x) (.fin 100) = true := by
  cases x with
  | nan => simp [PyFloat.isna] at h
  | inf => exact ⟨by with_unfolding_all rfl, by with_unfolding_all rfl⟩
  | ninf => exact ⟨by with_unfolding_all rfl, by with_unfolding_all rfl⟩
  | fin q =>
      rw [scoreQuality_fin, fin_le_fin, fin_le_fin]
      exact clamp_le_pair _

lemma scoreMom_bounds (x : PyFloat) (h : x.isna = false) :
    PyFloat.le (.fin 0) (scoreMom x) = true ∧ PyFloat.le (scoreMom x) (.fin 100) = true := by
  cases x with
  | nan => simp [PyFloat.isna] at h
  | inf => exact ⟨by with_unfolding_all rfl, by with_unfolding_all rfl⟩
  | ninf => exact ⟨by with_unfolding_all rfl, by with_unfolding_all rfl⟩
  | fin q =>
      rw [scoreMom_fin, fin_le_fin, fin_le_fin]
      exact clamp_le_pair _

lemma roundTo100_pres {x : PyFloat} (h0 : PyFloat.le (.fin 0) x = true)
    (h1 : PyFloat.le x (.fin 100) = true) :
    PyFloat.le (.fin 0) (roundTo 100 x) = true
      ∧ PyFloat.le (roundTo 100 x) (.fin 100) = true := by
  cases x with
  | nan => simp [PyFloat.le] at h0
  | inf => simp [PyFloat.le] at h1
  | ninf => simp [PyFloat.le] at h0
  | fin q =>
      rw [fin_le_fin] at h0 h1
      have hb := roundTo100_fin_bounds (of_decide_eq_true h0) (of_decide_eq_true h1)
      rw [show roundTo 100 (.fin q) = .fin ((halfEven (q * 100) : ℚ) / 100) from rfl,
        fin_le_fin, fin_le_fin]
      exact ⟨decide_eq_true hb.1, decide_eq_true hb.2⟩

lemma boundedVal_some {x : PyFloat} (h0 : PyFloat.le (.fin 0) x = true)
    (h1 : PyFloat.le x (.fin 100) = true) :
    boundedVal (some (.f (roundTo 100 x))) = true := by
  have hp := roundTo100_pres h0 h1
  simp [boundedVal, hp.1, hp.2]

/-- Claim C4 counterexample: the assembled row stores only four raw
loadings (the CMA loading is absent), not five; and when both momentum
reference prices are zero the stored momentum score is NaN, outside
the 0 to 100 interval. -/
theorem result_row_shape_refuted :
    ((assembleRow "T" 0 zeroBetas cPxZeros []).map Prod.fst).countP
        (fun k => k.endsWith "_Raw") = 4
      ∧ ((assembleRow "T" 0 zeroBetas cPxZeros []).map Prod.fst).contains "CMA_Raw" = false
      ∧ (assembleRow "T" 0 zeroBetas cPxZeros []).lookup "Score_Mom" = some (.f .nan)
      ∧ boundedVal ((assembleRow "T" 0 zeroBetas cPxZeros []).lookup "Score_Mom") = false := by
  exact ⟨by with_unfolding_all rfl, by with_unfolding_all rfl,
    by with_unfolding_all rfl, by with_unfolding_all rfl⟩

/-- Claim C4 as amended: every assembled row contains the ticker, the
last date, five bounded scores (one of which is the momentum score),
four raw factor loadings (market, size, value, quality; the CMA
loading is omitted), a semicolon-joined basket string and a trend
string; the five stored scores lie in the closed interval from 0 to
100 whenever the final coefficients passed the NaN gate and the raw
momentum is not NaN. -/
theorem result_row_shape (tk : String) (d : ℕ) (betas : Betas) (px : List ℚ)
    (tc : List PyFloat) (hb : anyNaN betas = false) (hm : momRaw px ≠ .nan) :
    (assembleRow tk d betas px tc).map Prod.fst =
      ["Ticker", "Last_Date", "Score_Beta", "Score_Size", "Score_Value", "Score_Mom",
       "Score_Quality", "Beta_Raw", "SMB_Raw", "HML_Raw", "RMW_Raw", "Baskets", "Beta_Trend"]
      ∧ boundedVal ((assembleRow tk d betas px tc).lookup "Score_Beta") = true
      ∧ boundedVal ((assembleRow tk d betas px tc).lookup "Score_Size") = true
      ∧ boundedVal ((assembleRow tk d betas px tc).lookup "Score_Value") = true
      ∧ boundedVal ((assembleRow tk d betas px tc).lookup "Score_Mom") = true
      ∧ boundedVal ((assembleRow tk d betas px tc).lookup "Score_Quality") = true
      ∧ (assembleRow tk d betas px tc).lookup "Ticker" = some (.s tk) := by
  simp only [anyNaN, Bool.or_eq_false_iff] at hb
  obtain ⟨⟨⟨⟨⟨hco, hmk⟩, hsm⟩, hhm⟩, hrm⟩, hcm⟩ := hb
  refine ⟨rfl, ?_, ?_, ?_, ?_, ?_, rfl⟩
  · rw [show (assembleRow tk d betas px tc).lookup "Score_Beta"
        = some (.f (roundTo 100 (scoreBeta betas.mktRF))) from rfl]
    have hs := scoreBeta_bounds betas.mktRF hmk
    exact boundedVal_some hs.1 hs.2
  · rw [show (assembleRow tk d betas px tc).lookup "Score_Size"
        = some (.f (roundTo 100 (scoreSize betas.smb))) from rfl]
    have hs := scoreSize_bounds betas.smb hsm
    exact boundedVal_some hs.1 hs.2
  · rw [show (assembleRow tk d betas px tc).lookup "Score_Value"
        = some (.f (roundTo 100 (scoreValue betas.hml))) from rfl]
    have hs := scoreValue_bounds betas.hml hhm
    exact boundedVal_some hs.1 hs.2
  · rw [show (assembleRow tk d betas px tc).lookup "Score_Mom"
        = some (.f (roundTo 100 (scoreMom (momRaw px)))) from rfl]
    have hs := scoreMom_bounds (momRaw px) (ne_nan_isna _ hm)
    exact boundedVal_some hs.1 hs.2
  · rw [show (assembleRow tk d betas px tc).lookup "Score_Quality"
        = some (.f (roundTo 100 (scoreQuality betas.rmw))) from rfl]
    have hs := scoreQuality_bounds betas.rmw hrm
    exact boundedVal_some hs.1 hs.2

/-- Claim C4 witness: the row shape and score bounds at the all-zero
coefficient set and a concrete 252-day close column. -/
theorem result_row_shape_inst :
    boundedVal ((assembleRow "T" 0 zeroBetas (cPricesB.map (·.2)) []).lookup "Score_Beta") = true
      ∧ boundedVal
        ((assembleRow "T" 0 zeroBetas (cPricesB.map (·.2)) []).lookup "Score_Mom") = true := by
  have h := result_row_shape "T" 0 zeroBetas (cPricesB.map (·.2)) [] (by decide)
    (by with_unfolding_all decide)
  exact ⟨h.2.1, h.2.2.2.2.1⟩

/-- Claim C6: an instrument whose merged price/factor table has fewer
than 126 overlapping rows contributes no row to the result list, and
the batch fold simply continues with the remaining instruments. -/
theorem insufficient_overlap_skips
    (regress : List PyFloat → List FFRow → List Betas) (tk : String)
    (prices : List (ℕ × ℚ)) (ff : List (ℕ × FFRow)) (st : BatchState)
    (h : (mergedOf prices ff).length < 126) :
    (processInstrument regress tk prices ff st).results = st.results
      ∧ ∀ rest, processBatch regress ((tk, prices) :: rest) ff st
          = processBatch regress rest ff (processInstrument regress tk prices ff st) := by
  constructor
  · unfold processInstrument
    dsimp only
    split_ifs <;> rfl
  · intro rest; rfl

lemma mergedBC_len : (mergedOf cPricesB cFFC).length = 100 := by
  with_unfolding_all rfl

/-- Claim C6 witness: a 252-day instrument with exactly 100 overlapping
factor dates is skipped with no result row. -/
theorem insufficient_overlap_skips_inst :
    (mergedOf cPricesB cFFC).length = 100
      ∧ (processInstrument cRegZero "T" cPricesB cFFC ⟨[], []⟩).results = [] :=
  ⟨mergedBC_len,
   (insufficient_overlap_skips cRegZero "T" cPricesB cFFC ⟨[], []⟩
     (by rw [mergedBC_len]; norm_num)).1⟩

/-- Claim C5 as amended: a NaN in any of the six final coefficients
(the five loadings or the intercept) makes the instrument contribute
no result row, and the batch fold continues; the pandas isna gate,
however, does not react to an infinite coefficient. -/
theorem nan_coefficients_skip
    (regress : List PyFloat → List FFRow → List Betas) (tk : String)
    (prices : List (ℕ × ℚ)) (ff : List (ℕ × FFRow)) (st : BatchState)
    (h : anyNaN (finalBetas regress prices ff) = true) :
    (processInstrument regress tk prices ff st).results = st.results
      ∧ ∀ rest, processBatch regress ((tk, prices) :: rest) ff st
          = processBatch regress rest ff (processInstrument regress tk prices ff st) := by
  constructor
  · unfold finalBetas at h
    unfold processInstrument
    dsimp only
    split_ifs <;> rfl
  · intro rest; rfl

/-- Claim C5 witness: an all-NaN final estimate on the full concrete
252-day inputs leaves the result list unchanged. -/
theorem nan_coefficients_skip_inst :
    anyNaN (finalBetas cRegNaN cPricesB cFFB) = true
      ∧ (processInstrument cRegNaN "T" cPricesB cFFB ⟨[], []⟩).results = [] :=
  ⟨rfl, (nan_coefficients_skip cRegNaN "T" cPricesB cFFB ⟨[], []⟩ rfl).1⟩

set_option maxHeartbeats 4000000 in
lemma c5_eval : (processInstrument cRegInf "T" cPricesB cFFB ⟨[], []⟩).results
    = [assembleRow "T" 251 infBetas (cPricesB.map (·.2)) ([infBetas].map (·.mktRF))] := rfl

/-- Claim C5 counterexample: a final estimate whose market coefficient
is infinite (and NaN-free) passes the isna gate, and the instrument is
scored and contributes a result row instead of being skipped. -/
theorem nan_gate_misses_infinite_coefficient :
    anyNaN (finalBetas cRegInf cPricesB cFFB) = false
      ∧ (finalBetas cRegInf cPricesB cFFB).mktRF = .inf
      ∧ (processInstrument cRegInf "T" cPricesB cFFB ⟨[], []⟩).results.length = 1 := by
  refine ⟨rfl, rfl, ?_⟩
  rw [c5_eval]
  rfl

/-- Claim C10: once an instrument passes the price-length and nonempty
return gates, its trailing 252 returns are recorded in the shared
returns collection, and a later skip by the overlap gate or the NaN
gate leaves that record in place while contributing no result row. -/
theorem returns_recorded_before_skip
    (regress : List PyFloat → List FFRow → List Betas) (tk : String)
    (prices : List (ℕ × ℚ)) (ff : List (ℕ × FFRow)) (st : BatchState)
    (h1 : 252 ≤ prices.length) (h2 : dailyRet prices ≠ [])
    (h3 : (mergedOf prices ff).length < 126
        ∨ anyNaN (finalBetas regress prices ff) = true) :
    (processInstrument regress tk prices ff st).returnsData
        = st.returnsData ++ [(tk, takeLast 252 (dailyRet prices))]
      ∧ (processInstrument regress tk prices ff st).results = st.results := by
  unfold finalBetas at h3
  unfold processInstrument
  dsimp only
  split_ifs with g1 g2 g3 g4
  · omega
  · exact absurd (List.length_eq_zero.1 g2) h2
  · exact ⟨rfl, rfl⟩
  · exact ⟨rfl, rfl⟩
  · rcases h3 with h3 | h3
    · exact absurd h3 g3
    · exact absurd h3 g4

lemma drB_len : (dailyRet cPricesB).length = 251 := by
  with_unfolding_all rfl

/-- Claim C10 witness: the 252-day instrument with 100 overlapping
dates is skipped by the overlap gate, yet its returns record is
present in the collection while the result list stays empty. -/
theorem returns_recorded_before_skip_inst :
    (mergedOf cPricesB cFFC).length = 100
      ∧ (processInstrument cRegZero "T" cPricesB cFFC ⟨[], []⟩).returnsData
          = [("T", takeLast 252 (dailyRet cPricesB))]
      ∧ (processInstrument cRegZero "T" cPricesB cFFC ⟨[], []⟩).results = [] := by
  have h := returns_recorded_before_skip cRegZero "T" cPricesB cFFC ⟨[], []⟩
    (by decide)
    (by intro he; have hl := drB_len; rw [he] at hl; simp at hl)
    (Or.inl (by rw [mergedBC_len]; norm_num))
  exact ⟨mergedBC_len, h.1, h.2⟩

set_option maxHeartbeats 4000000 in
lemma c2_eval : (processInstrument cRegZero "TEST" cPricesA cFFA ⟨[], []⟩).results
    = [assembleRow "TEST" 399 zeroBetas (cPricesA.map (·.2)) ([zeroBetas].map (·.mktRF))] := rfl

/-- Claim C2 counterexample: on the 400-day constant price series with
all final loadings exactly zero (the situation the scenario itself
posits) and zero momentum, the produced row carries a market-beta
score of 0, not 50, and the basket string Defensive Low Vol, not
Neutral, since a zero market beta is below the 0.7 threshold. -/
theorem scenarioA_refuted :
    cPricesA.length = 400
      ∧ (cPricesA.map (·.2)).all (fun p => decide (p = 100)) = true
      ∧ momRaw (cPricesA.map (·.2)) = .fin 0
      ∧ (processInstrument cRegZero "TEST" cPricesA cFFA ⟨[], []⟩).results.map
          (fun r => r.lookup "Score_Beta") = [some (.f (.fin 0))]
      ∧ decide ((processInstrument cRegZero "TEST" cPricesA cFFA ⟨[], []⟩).results.map
          (fun r => r.lookup "Score_Beta") = [some (.f (.fin 50))]) = false
      ∧ (processInstrument cRegZero "TEST" cPricesA cFFA ⟨[], []⟩).results.map
          (fun r => r.lookup "Baskets") = [some (.s "Defensive Low Vol")]
      ∧ decide ((processInstrument cRegZero "TEST" cPricesA cFFA ⟨[], []⟩).results.map
          (fun r => r.lookup "Baskets") = [some (.s "Neutral")]) = false := by
  refine ⟨rfl, by with_unfolding_all rfl, by with_unfolding_all rfl, ?_, ?_, ?_, ?_⟩
  · rw [c2_eval]; with_unfolding_all rfl
  · rw [c2_eval]; with_unfolding_all rfl
  · rw [c2_eval]; with_unfolding_all rfl
  · rw [c2_eval]; with_unfolding_all rfl

/-- Claim C2 as amended: the 400-day constant price series with zero
final loadings yields one row with zero raw momentum, a market-beta
score of exactly 0 (the clamp of 0 times 50), size, value, quality and
momentum scores of exactly 50, and the basket string Defensive Low
Vol coming from the low-beta branch. -/
theorem scenarioA_constant_prices :
    (processInstrument cRegZero "TEST" cPricesA cFFA ⟨[], []⟩).results.length = 1
      ∧ momRaw (cPricesA.map (·.2)) = .fin 0
      ∧ (processInstrument cRegZero "TEST" cPricesA cFFA ⟨[], []⟩).results.map
          (fun r => r.lookup "Score_Beta") = [some (.f (.fin 0))]
      ∧ (processInstrument cRegZero "TEST" cPricesA cFFA ⟨[], []⟩).results.map
          (fun r => r.lookup "Score_Size") = [some (.f (.fin 50))]
      ∧ (processInstrument cRegZero "TEST" cPricesA cFFA ⟨[], []⟩).results.map
          (fun r => r.lookup "Score_Value") = [some (.f (.fin 50))]
      ∧ (processInstrument cRegZero "TEST" cPricesA cFFA ⟨[], []⟩).results.map
          (fun r => r.lookup "Score_Quality") = [some (.f (.fin 50))]
      ∧ (processInstrument cRegZero "TEST" cPricesA cFFA ⟨[], []⟩).results.map
          (fun r => r.lookup "Score_Mom") = [some (.f (.fin 50))]
      ∧ (processInstrument cRegZero "TEST" cPricesA cFFA ⟨[], []⟩).results.map
          (fun r => r.lookup "Baskets") = [some (.s "Defensive Low Vol")] := by
  refine ⟨?_, by with_unfolding_all rfl, ?_, ?_, ?_, ?_, ?_, ?_⟩
  · rw [c2_eval]; rfl
  · rw [c2_eval]; with_unfolding_all rfl
  · rw [c2_eval]; with_unfolding_all rfl
  · rw [c2_eval]; with_unfolding_all rfl
  · rw [c2_eval]; with_unfolding_all rfl
  · rw [c2_eval]; with_unfolding_all rfl
  · rw [c2_eval]; with_unfolding_all rfl

end FamaFrench
